import Mathlib

/-!
Verification development for the judge_agent repository.

Shallow embedding of the core batch-processing and reconciliation logic:
  * `ProcessPapers` — the work-unit store (`src/process_papers_enhanced.py`):
    the `paper_evaluations` table with its `doi` primary key, the pending-set
    query `get_unprocessed_papers`, the upsert `save_result`, the runtime
    validation `validate_runtime` and the control flow of
    `process_papers_parallel` up to dispatch.
  * `LlmJudge` — the judge client (`src/llm_judge.py`): the retry loop with
    exponential backoff, and the markdown-fence stripping before JSON parsing.
  * `NormalizeTheories` — the batch reconciler
    (`scripts/normalization/normalize_theories.py`): `normalize_theory_batch`
    with its content-key matching, conservative-mode validation, pro-rata
    token/cost distribution and retry loop, and
    `normalize_theories_sequential` with its ontology-growing passes.

Machine integers do not overflow in the modelled code paths (Python ints are
unbounded), so token counts are `Nat` and monetary amounts are `ℚ` (Python
floats; the modelled expressions are exact at these magnitudes).  File and
network I/O is represented by explicit parameters: the oracle outcomes are
passed in as data.
-/

namespace Py

/-- Python `str.lower()` (character-wise, as used on the ASCII data of this
program), written on the character list so that it evaluates by kernel
reduction. -/
def pyLower (s : String) : String :=
  String.mk (s.data.map Char.toLower)

/-- Python `str.strip()` with no argument: remove leading and trailing
whitespace. -/
def pyTrim (s : String) : String :=
  String.mk (((s.data.dropWhile Char.isWhitespace).reverse.dropWhile
    Char.isWhitespace).reverse)

/-- Python `str.startswith(pre)`. -/
def pyStartsWith (pre s : String) : Bool :=
  pre.data.isPrefixOf s.data

/-- Python slicing `s[n:]`. -/
def pyDrop (n : Nat) (s : String) : String :=
  String.mk (s.data.drop n)

end Py

namespace ProcessPapers

/-- One row of the `paper_evaluations` table
(`init_results_database`, `process_papers_enhanced.py` lines 176-196).
`doi` is the `TEXT PRIMARY KEY`; nullable columns are `Option`. -/
structure EvalRow where
  doi : String
  pmid : Option String
  title : Option String
  result : Option String
  aging_theory : Option String
  type : Option String
  reasoning : Option String
  confidence_score : Option Int
  prompt_tokens : Nat
  completion_tokens : Nat
  total_tokens : Nat
  cost_usd : ℚ
  processing_time_seconds : ℚ
  success : Nat
  error_message : Option String
  timestamp : String
  model_used : String
deriving DecidableEq, Repr

/-- The `paper_evaluations` table as a list of rows (insertion order). -/
abbrev Store := List EvalRow

/-- `save_result` (`process_papers_enhanced.py` lines 366-413): a single
`INSERT OR REPLACE INTO paper_evaluations` keyed by the `doi` primary key.
SQLite REPLACE deletes any row conflicting on the primary key and inserts the
new row.  The surrounding lock-retry loop only repeats this same write, so a
successful call has exactly this effect on the table. -/
def save_result (store : Store) (r : EvalRow) : Store :=
  store.filter (fun x => x.doi != r.doi) ++ [r]

/-- One record of the source `papers` table (read-only corpus). -/
structure PaperRec where
  doi : Option String
  pmid : Option String
  title : Option String
  abstract : Option String
deriving DecidableEq, Repr

/-- The SQL eligibility filter of `get_unprocessed_papers`
(lines 266-273): `doi IS NOT NULL AND title IS NOT NULL AND
abstract IS NOT NULL AND abstract != ''`. -/
def eligibleQ (p : PaperRec) : Bool :=
  p.doi.isSome && p.title.isSome && p.abstract.isSome && (p.abstract != some "")

/-- `get_unprocessed_papers` (`process_papers_enhanced.py` lines 246-300):
collects the set of dois already present in `paper_evaluations`
(`SELECT doi FROM paper_evaluations`, with no condition on `success`),
fetches the eligible corpus records (with `LIMIT limit * 3` when a limit is
given), keeps those whose doi is not among the stored dois, and truncates to
`limit` when given. -/
def get_unprocessed_papers (corpus : List PaperRec) (store : Store)
    (limit : Option Nat) : List PaperRec :=
  let processed_dois := store.map (·.doi)
  let all_papers :=
    match limit with
    | none => corpus.filter eligibleQ
    | some n => (corpus.filter eligibleQ).take (n * 3)
  let unprocessed :=
    all_papers.filter (fun p => !(processed_dois.contains (p.doi.getD "")))
  match limit with
  | none => unprocessed
  | some n => unprocessed.take n

/-- The runtime environment inspected by `validate_runtime`
(lines 123-164).  Python `os.getenv` results that are unset or empty are both
falsy under `if not os.getenv(...)`, so credential values are plain strings
with `""` standing for missing. -/
structure Env where
  papers_db_exists : Bool
  papers_table_exists : Bool
  papers_columns : List String
  use_module : String
  azure_endpoint : String
  azure_api_key : String
  azure_api_version : String
  openai_api_key : String
  output_dirs_ok : Bool
deriving DecidableEq, Repr

/-- `validate_runtime` (lines 123-164): returns `(ok, errors)` with
`ok = (len(errors) == 0)`.  The missing-column message joins the sorted
missing names; `sorted({"doi","pmid","title","abstract"})` is
`[abstract, doi, pmid, title]`. -/
def validate_runtime (e : Env) : Bool × List String :=
  let db_errs :=
    if !e.papers_db_exists then ["PAPERS_DB_PATH not found"]
    else if !e.papers_table_exists then
      ["'papers' table not found in PAPERS_DB_PATH"]
    else
      let missing := ["abstract", "doi", "pmid", "title"].filter
        (fun c => !(e.papers_columns.contains c))
      if missing.isEmpty then []
      else ["'papers' table missing columns: " ++ String.intercalate ", " missing]
  let cred_errs :=
    if Py.pyLower e.use_module == "azure" then
      (if e.azure_endpoint == "" then ["AZURE_OPENAI_ENDPOINT is not set"] else [])
        ++ (if e.azure_api_key == "" then ["AZURE_OPENAI_API_KEY is not set"] else [])
        ++ (if e.azure_api_version == "" then ["AZURE_OPENAI_API_VERSION is not set"] else [])
    else
      (if e.openai_api_key == "" then ["OPENAI_API_KEY is not set"] else [])
  let dir_errs := if !e.output_dirs_ok then ["Failed to create output directories"] else []
  let errs := db_errs ++ cred_errs ++ dir_errs
  (errs.isEmpty, errs)

/-- Why `process_papers_parallel` returned before submitting any work. -/
inductive AbortReason where
  | validationFailed
  | initFailed
  | fetchFailed
  | noPapers
deriving DecidableEq, Repr

/-- Observable outcome of one invocation of `process_papers_parallel`:
whether the dispatch phase (the `ProcessPoolExecutor` block) was reached. -/
structure RunOutcome where
  dispatched : Bool
  abort : Option AbortReason
deriving DecidableEq, Repr

/-- Control flow of `process_papers_parallel` (lines 515-564) up to dispatch:
validation failure, database-initialisation failure, fetch failure and an
empty pending set each `return` from the function before any unit is
submitted to the pool. -/
def process_papers_parallel (e : Env) (init_ok : Bool)
    (fetched : Except String (List PaperRec)) : RunOutcome :=
  if !(validate_runtime e).1 then ⟨false, some .validationFailed⟩
  else if !init_ok then ⟨false, some .initFailed⟩
  else
    match fetched with
    | .error _ => ⟨false, some .fetchFailed⟩
    | .ok [] => ⟨false, some .noPapers⟩
    | .ok (_ :: _) => ⟨true, none⟩

/-- Exit code of the script run (`__main__`, lines 679-712): the entry point
calls `process_papers_parallel` and falls off the end of the module; no code
path calls `sys.exit` or raises out of `process_papers_parallel` (every
failure path is a plain `return`), so the interpreter exits with status 0
whatever the outcome. -/
def script_exit_code (e : Env) (init_ok : Bool)
    (fetched : Except String (List PaperRec)) : Nat :=
  let _ := process_papers_parallel e init_ok fetched
  0

/-- A concrete evaluation row carrying only a doi and a success flag, used
to instantiate the store in concrete scenarios. -/
def sampleRow (doi : String) (succ : Nat) : EvalRow :=
  { doi := doi, pmid := none, title := none, result := none, aging_theory := none,
    type := none, reasoning := none, confidence_score := none, prompt_tokens := 0,
    completion_tokens := 0, total_tokens := 0, cost_usd := 0,
    processing_time_seconds := 0, success := succ, error_message := none,
    timestamp := "", model_used := "" }

/-- A concrete eligible corpus record with the given doi. -/
def samplePaper (doi : String) : PaperRec :=
  { doi := some doi, pmid := some "p", title := some "t", abstract := some "x" }

/-- A concrete environment whose only defect is a missing `OPENAI_API_KEY`:
the corpus database, its `papers` table and all required columns are present,
and the output directories can be created. -/
def envMissingKey : Env :=
  { papers_db_exists := true, papers_table_exists := true,
    papers_columns := ["doi", "pmid", "title", "abstract"],
    use_module := "openai", azure_endpoint := "", azure_api_key := "",
    azure_api_version := "", openai_api_key := "", output_dirs_ok := true }

end ProcessPapers

namespace LlmJudge

/-- `RETRIES` constant of `llm_judge.py` (line 19). -/
def RETRIES : Nat := 3

/-- `BASE_DELAY` constant of `llm_judge.py` (line 20), in seconds. -/
def BASE_DELAY : ℚ := 1 / 2

/-- `RATE_LIMIT_WAIT` constant of `llm_judge.py` (line 21), in seconds. -/
def RATE_LIMIT_WAIT : ℚ := 3 / 2

/-- Python `str.strip(chars)`: remove leading and trailing characters that
belong to the character set `chars`. -/
def pyStrip (chars : String) (s : String) : String :=
  ⟨((s.data.dropWhile (fun c => chars.data.contains c)).reverse.dropWhile
    (fun c => chars.data.contains c)).reverse⟩

/-- The opening-brace character of a JSON object, by code point. -/
def lbrace : Char := Char.ofNat 123

/-- The closing-brace character of a JSON object, by code point. -/
def rbrace : Char := Char.ofNat 125

/-- The fence-cleaning step of `llm_judge` (lines 53-55):
`if result_json.startswith("```"): result_json = result_json.strip(" ```json\n")`.
The strip argument is the character set of `" ```json\n"`. -/
def cleanResponse (s : String) : String :=
  if Py.pyStartsWith "```" s then pyStrip " ```json\n" s else s

/-- Token usage reported by the oracle response (`resp.usage`). -/
structure Usage where
  prompt_tokens : Nat
  completion_tokens : Nat
  total_tokens : Nat
deriving DecidableEq, Repr

/-- Outcome of one `client.chat.completions.create` call: the message
content plus usage, a `RateLimitError`, or any other exception (each carrying
its `str(e)`).  A JSON decode failure is not a call outcome: it arises from
parsing the returned content. -/
inductive CallOutcome where
  | ok (content : String) (usage : Usage)
  | rateLimit (msg : String)
  | otherErr (msg : String)
deriving DecidableEq, Repr

/-- Observable behaviour of one `llm_judge` invocation: the returned value
(or the message of the raised exception), the number of oracle calls made,
and the sequence of `time.sleep` durations in order. -/
structure JudgeRun (α : Type) where
  result : Except String (α × Usage)
  calls : Nat
  sleeps : List ℚ

/-- The retry loop of `llm_judge` (lines 42-98).  `oracle n` is the outcome
of the call made when the counter has value `n`; `parse` is `json.loads` on
the fence-cleaned content; `jitter n` is the `random.uniform` draw of the
iteration with counter `n`.  `fuel` is `retries - n`, so the loop condition
`n < retries` is `fuel > 0`.  On each failure the counter is incremented and,
if attempts remain, the corresponding backoff is slept; otherwise the
exception message of the source is raised. -/
def judgeLoop (parse : String → Except String α) (oracle : Nat → CallOutcome)
    (jitter : Nat → ℚ) (retries : Nat) :
    Nat → Nat → Nat → List ℚ → JudgeRun α
  | 0, _, calls, sleeps =>
    ⟨.error ("Failed after " ++ toString retries ++ " retries"), calls, sleeps.reverse⟩
  | fuel + 1, n, calls, sleeps =>
    match oracle n with
    | .ok content usage =>
      match parse (cleanResponse content) with
      | .ok v =>
        ⟨.ok (v, usage), calls + 1, (sleeps.reverse) ++ [BASE_DELAY + jitter n]⟩
      | .error e =>
        if n + 1 < retries then
          judgeLoop parse oracle jitter retries fuel (n + 1) (calls + 1) ((2 : ℚ) :: sleeps)
        else
          ⟨.error ("JSON parsing failed after " ++ toString retries ++ " retries: " ++ e),
            calls + 1, sleeps.reverse⟩
    | .rateLimit msg =>
      let wait := RATE_LIMIT_WAIT * 2 ^ n + jitter n
      if n + 1 < retries then
        judgeLoop parse oracle jitter retries fuel (n + 1) (calls + 1) (wait :: sleeps)
      else
        ⟨.error ("Rate limit exceeded after " ++ toString retries ++ " retries: " ++ msg),
          calls + 1, sleeps.reverse⟩
    | .otherErr msg =>
      let wait : ℚ := 2 * (n + 1)
      if n + 1 < retries then
        judgeLoop parse oracle jitter retries fuel (n + 1) (calls + 1) (wait :: sleeps)
      else
        ⟨.error ("Failed after " ++ toString retries ++ " retries: " ++ msg),
          calls + 1, sleeps.reverse⟩

/-- `llm_judge` (`llm_judge.py` lines 36-98) with its default retry bound
`RETRIES`: run the retry loop from counter 0. -/
def llm_judge (parse : String → Except String α) (oracle : Nat → CallOutcome)
    (jitter : Nat → ℚ) (retries : Nat) : JudgeRun α :=
  judgeLoop parse oracle jitter retries retries 0 0 []

end LlmJudge

namespace NormalizeTheories

/-- `RETRIES` constant of `normalize_theories.py` (line 40). -/
def RETRIES : Nat := 3

/-- `BATCH_SIZE` constant of `normalize_theories.py` (line 38). -/
def BATCH_SIZE : Nat := 40

/-- `COST_PER_1K_PROMPT_TOKENS` (line 34): 0.00004 USD. -/
def COST_PER_1K_PROMPT_TOKENS : ℚ := 4 / 100000

/-- `COST_PER_1K_COMPLETION_TOKENS` (line 35): 0.0001 USD. -/
def COST_PER_1K_COMPLETION_TOKENS : ℚ := 1 / 10000

/-- `calculate_cost` (`normalize_theories.py` lines 547-551). -/
def calculate_cost (prompt_tokens completion_tokens : Nat) : ℚ :=
  ((prompt_tokens : ℚ) / 1000) * COST_PER_1K_PROMPT_TOKENS
    + ((completion_tokens : ℚ) / 1000) * COST_PER_1K_COMPLETION_TOKENS

/-- An `aging_theory` value: the code handles both a plain string and a list
of strings (joined with `", "` before matching). -/
inductive TheoryVal where
  | str (s : String)
  | list (l : List String)
deriving DecidableEq, Repr

/-- `normalize_theory_key` (lines 375-379): join a list with `", "`, then
lower-case and strip surrounding whitespace. -/
def normalize_theory_key : TheoryVal → String
  | .str s => Py.pyTrim (Py.pyLower s)
  | .list l => Py.pyTrim (Py.pyLower (String.intercalate ", " l))

/-- A single-quote character, written by code point to keep it out of the
surrounding text. -/
def singleQuote : String := String.singleton (Char.ofNat 39)

/-- Python `f"{x}"` on an `aging_theory` value (line 506): the string itself,
or the `repr` of a list of strings. -/
def pyReprTheory : TheoryVal → String
  | .str s => s
  | .list l =>
    "[" ++ String.intercalate ", " (l.map (fun s => singleQuote ++ s ++ singleQuote)) ++ "]"

/-- One ontology entry.  The source stores these as JSON objects with keys
`Theory Name`, `Seed Keyword List`, `Theory Category`, `Sub-Category` and
`Main Concepts`; field names are the Lean renderings of those keys. -/
structure OntologyEntry where
  theoryName : String
  seedKeywords : List String
  category : String
  subCategory : String
  mainConcepts : String
deriving DecidableEq, Repr

/-- One input paper as consumed by `normalize_theory_batch`: only `doi` and
`aging_theory` influence the modelled behaviour. -/
structure Paper where
  doi : String
  aging_theory : TheoryVal
deriving DecidableEq, Repr

/-- A JSON value inside a `mapped_names` list: a string, or anything else
(the code filters out the non-strings with `isinstance(name, str)`). -/
inductive MVal where
  | s (v : String)
  | other
deriving DecidableEq, Repr

/-- One entry of the `results` array of a parsed batch response.
`mapped_names` is `null`, a single value, or a list; `confidence` is `null`,
a single number, or a list of numbers; a missing `keywords` key or a
non-list value is the empty list (`.get('keywords', [])` and the later
`isinstance` guard). -/
structure ResultItem where
  initial_theory_name : TheoryVal
  mapped_names : Option (Sum MVal (List MVal))
  confidence : Option (Sum ℚ (List ℚ))
  keywords : List String
deriving DecidableEq, Repr

/-- A successfully parsed batch response together with its token usage. -/
structure LLMResponse where
  results : List ResultItem
  prompt_tokens : Nat
  completion_tokens : Nat
  total_tokens : Nat
deriving DecidableEq, Repr

/-- One element of a `norm_theories` list. -/
structure NormTheory where
  theory : String
  confidence : ℚ
deriving DecidableEq, Repr

/-- One per-paper record returned by `normalize_theory_batch`
(initialised at lines 307-322). -/
structure NormResult where
  doi : String
  initial_theory : TheoryVal
  norm_theories : Option (List NormTheory)
  mapping_reasoning : Option String
  prompt_tokens : Nat
  completion_tokens : Nat
  total_tokens : Nat
  cost_usd : ℚ
  success : Nat
  error_message : Option String
  new_theory_keywords : List String
  retry_attempt : Nat
deriving DecidableEq, Repr

/-- The initial record for one paper (lines 307-322). -/
def initResult (p : Paper) : NormResult :=
  { doi := p.doi, initial_theory := p.aging_theory, norm_theories := none,
    mapping_reasoning := none, prompt_tokens := 0, completion_tokens := 0,
    total_tokens := 0, cost_usd := 0, success := 0, error_message := none,
    new_theory_keywords := [], retry_attempt := 0 }

/-- The initial records of a batch, in input order. -/
def initResults (papers : List Paper) : List NormResult :=
  papers.map initResult

/-- The per-attempt context derived from one parsed response
(lines 359-365): usage totals, batch size, and the per-call parameters. -/
structure BatchCtx where
  resultList : List ResultItem
  B : Nat
  pTok : Nat
  cTok : Nat
  tTok : Nat
  ontology : List OntologyEntry
  conservative : Bool

/-- `cost_per_paper = total_cost / len(papers_batch)` (line 365). -/
def costShare (ctx : BatchCtx) : ℚ :=
  calculate_cost ctx.pTok ctx.cTok / ctx.B

/-- The final binding of the `llm_results_by_name` dict for a key (lines
381-385): dict insertion means the last response item with that normalized
key wins. -/
def findLast (l : List ResultItem) (key : String) : Option ResultItem :=
  l.reverse.find? (fun it => normalize_theory_key it.initial_theory_name == key)

/-- `if not isinstance(mapped_names, list): mapped_names = [mapped_names]`. -/
def ensureNameList : Sum MVal (List MVal) → List MVal
  | .inl v => [v]
  | .inr l => l

/-- `if not isinstance(confidences, list): confidences = [confidences]`. -/
def ensureConfList : Sum ℚ (List ℚ) → List ℚ
  | .inl q => [q]
  | .inr l => l

/-- `isinstance(name, str)` filter on a mapped-names element. -/
def asStr : MVal → Option String
  | .s v => some v
  | .other => none

/-- `clean_name = name[4:] if name.startswith('NEW_') else name` (line 445). -/
def clean_name_of (name : String) : String :=
  if Py.pyStartsWith "NEW_" name then Py.pyDrop 4 name else name

/-- The `norm_theories`-building loop (lines 491-511): pair each kept name
with `confidences[i] if i < len(confidences) else confidences[0]`; in
learning mode a name with confidence < 6 and no `NEW_` prefix is replaced by
`NEW_` followed by the f-string of the paper's `aging_theory`.  An empty
confidence list raises the `IndexError` of `confidences[0]`, aborting the
whole attempt. -/
def buildNormAux (conservative : Bool) (paperTheory : TheoryVal) (confs : List ℚ) :
    Nat → List String → Except String (List NormTheory)
  | _, [] => .ok []
  | i, name :: rest =>
    match (confs.get? i).orElse (fun _ => confs.get? 0) with
    | none => .error "list index out of range"
    | some conf =>
      let nm :=
        if !conservative && decide (conf < 6) && !(Py.pyStartsWith "NEW_" name) then
          "NEW_" ++ pyReprTheory paperTheory
        else name
      match buildNormAux conservative paperTheory confs (i + 1) rest with
      | .error e => .error e
      | .ok l => .ok ({ theory := nm, confidence := conf } :: l)

/-- The unresolved-match update (lines 403-406 and the three conservative
null branches) followed by the common share/success writes (lines 517-521):
`norm_theories` becomes `null`, the reasoning is recorded, keywords are
cleared, the pro-rata shares are assigned and the unit is marked success. -/
def nullShares (ctx : BatchCtx) (r : NormResult) (reason : String) : NormResult :=
  { r with
    norm_theories := none, mapping_reasoning := some reason,
    new_theory_keywords := [],
    prompt_tokens := ctx.pTok / ctx.B, completion_tokens := ctx.cTok / ctx.B,
    total_tokens := ctx.tTok / ctx.B, cost_usd := costShare ctx, success := 1 }

/-- The accepted-match update (lines 513-521): an empty list becomes `null`,
the reasoning and keywords are recorded, the pro-rata shares are assigned and
the unit is marked success. -/
def finishMatch (ctx : BatchCtx) (r : NormResult) (key : String)
    (nts : List NormTheory) (keywords : List String) : NormResult :=
  { r with
    norm_theories := if nts.isEmpty then none else some nts,
    mapping_reasoning := some ("Mapped from: " ++ key),
    new_theory_keywords := keywords,
    prompt_tokens := ctx.pTok / ctx.B, completion_tokens := ctx.cTok / ctx.B,
    total_tokens := ctx.tTok / ctx.B, cost_usd := costShare ctx, success := 1 }

/-- Processing of one matched response item (lines 396-521): the null-mapping
branch, the conservative-mode validation (confidence filter, seed-ontology
checks) and the accepted-match path. -/
def applyItem (ctx : BatchCtx) (paper : Paper) (r0 : NormResult)
    (item : ResultItem) : Except String NormResult :=
  let key := normalize_theory_key paper.aging_theory
  match item.mapped_names, item.confidence with
  | none, _ => .ok (nullShares ctx r0 ("No confident mapping for: " ++ key))
  | some _, none => .ok (nullShares ctx r0 ("No confident mapping for: " ++ key))
  | some mn, some cf =>
    let confs := ensureConfList cf
    let names := (ensureNameList mn).filterMap asStr
    if ctx.conservative then
      let seed_theory_names := ctx.ontology.map (fun t => Py.pyTrim (Py.pyLower t.theoryName))
      let filtered_pairs := (names.zip confs).filter (fun pc => decide (6 < pc.2))
      if filtered_pairs.isEmpty then
        .ok (nullShares ctx r0 ("No high-confidence mapping (all ≤6) for: " ++ key))
      else
        let inSeed : String → Bool := fun name =>
          seed_theory_names.contains (Py.pyTrim (Py.pyLower (clean_name_of name)))
        let all_in_seed := filtered_pairs.all (fun pc => inSeed pc.1)
        let some_in_seed := filtered_pairs.any (fun pc => inSeed pc.1)
        if some_in_seed && !all_in_seed then
          .ok (nullShares ctx r0
            ("Mixed seed/non-seed theories (conservative mode) for: " ++ key))
        else if !all_in_seed then
          .ok (nullShares ctx r0
            ("No seed ontology match (conservative mode) for: " ++ key))
        else
          match buildNormAux true paper.aging_theory (filtered_pairs.map (·.2)) 0
              (filtered_pairs.map (·.1)) with
          | .error e => .error e
          | .ok nts => .ok (finishMatch ctx r0 key nts item.keywords)
    else
      match buildNormAux false paper.aging_theory confs 0 names with
      | .error e => .error e
      | .ok nts => .ok (finishMatch ctx r0 key nts item.keywords)

/-- Per-paper step of the reconciliation loop (lines 390-529): look the
paper's normalized key up in the response dict; a miss marks the unit failed
with the not-found reason while still assigning the pro-rata shares
(lines 522-529). -/
def processOne (ctx : BatchCtx) (paper : Paper) (r0 : NormResult) :
    Except String NormResult :=
  let key := normalize_theory_key paper.aging_theory
  match findLast ctx.resultList key with
  | none =>
    .ok { r0 with
      success := 0,
      error_message := some ("Theory not found in LLM response: " ++ key),
      prompt_tokens := ctx.pTok / ctx.B, completion_tokens := ctx.cTok / ctx.B,
      total_tokens := ctx.tTok / ctx.B, cost_usd := costShare ctx }
  | some item => applyItem ctx paper r0 item

/-- Total version of `processOne`; under the well-formedness condition used
in the theorems it coincides with the `.ok` value. -/
def processOneOk (ctx : BatchCtx) (paper : Paper) (r0 : NormResult) : NormResult :=
  match processOne ctx paper r0 with
  | .ok v => v
  | .error _ => r0

/-- The reconciliation loop over the batch (lines 390-529) with Python's
in-place mutation made explicit: papers are processed in order against their
current records; an exception leaves the current and remaining records
untouched and aborts the attempt with the exception message. -/
def processAll (ctx : BatchCtx) :
    List Paper → List NormResult → List NormResult × Option String
  | [], rs => (rs, none)
  | _ :: _, [] => ([], none)
  | p :: ps, r :: rs =>
    match processOne ctx p r with
    | .error e => (r :: rs, some e)
    | .ok r2 =>
      let rest := processAll ctx ps rs
      (r2 :: rest.1, rest.2)

/-- The per-attempt context assembled at lines 359-365 from the parsed
response and the batch size. -/
def mkCtx (resp : LLMResponse) (b : Nat) (ontology : List OntologyEntry)
    (conservative : Bool) : BatchCtx :=
  { resultList := resp.results, B := b,
    pTok := resp.prompt_tokens, cTok := resp.completion_tokens,
    tTok := resp.total_tokens, ontology := ontology,
    conservative := conservative }

/-- The `while n < retries` loop of `normalize_theory_batch` (lines 326-544).
Each iteration consumes one oracle outcome: a failed call or unparseable
response sets every record's `error_message` and retries; a parsed response
is reconciled, retrying likewise if reconciliation raises; falling off the
loop marks every record failed (lines 541-544). -/
def attemptLoop (papers : List Paper) (ontology : List OntologyEntry)
    (conservative : Bool) :
    List (Except String LLMResponse) → List NormResult → List NormResult
  | [], rs => rs.map (fun r => { r with success := 0 })
  | .error e :: rest, rs =>
    attemptLoop papers ontology conservative rest
      (rs.map (fun r => { r with error_message := some e }))
  | .ok resp :: rest, rs =>
    let ctx := mkCtx resp papers.length ontology conservative
    match processAll ctx papers rs with
    | (rs2, none) => rs2
    | (rs2, some e) =>
      attemptLoop papers ontology conservative rest
        (rs2.map (fun r => { r with error_message := some e }))

/-- `normalize_theory_batch` (`normalize_theories.py` lines 290-544),
parameterised by the outcomes the oracle would deliver on successive
attempts; the loop makes at most `retries` attempts. -/
def normalize_theory_batch (papers : List Paper) (ontology : List OntologyEntry)
    (attempts : List (Except String LLMResponse)) (retries : Nat)
    (conservative_mode : Bool) : List NormResult :=
  attemptLoop papers ontology conservative_mode (attempts.take retries)
    (initResults papers)

/-- Appending one `NEW_`-prefixed theory to the working ontology
(lines 648-682 and 761-788): strip the prefix, skip when an entry with the
exact cleaned name exists (case-sensitive equality), otherwise append an
`Emerging/Novel` entry built from the result's keywords. -/
def addOneTheory (subCategory : String) (keywords : List String)
    (working : List OntologyEntry) (nt : NormTheory) : List OntologyEntry :=
  if Py.pyStartsWith "NEW_" nt.theory then
    let clean_name := Py.pyDrop 4 nt.theory
    if working.any (fun t => t.theoryName == clean_name) then working
    else
      let kws := if keywords.isEmpty then [Py.pyLower clean_name] else keywords
      working ++ [{
        theoryName := clean_name, seedKeywords := kws,
        category := "Emerging/Novel", subCategory := subCategory,
        mainConcepts := "Novel theory: " ++ clean_name ++ ". Key concepts: " ++
          String.intercalate ", " (kws.take 10) }]
  else working

/-- The ontology update performed for one batch result: only a successful
result with a non-empty `norm_theories` list contributes
(`if result['success'] and result['norm_theories']`). -/
def addNewFromResult (subCategory : String) (working : List OntologyEntry)
    (r : NormResult) : List OntologyEntry :=
  match r.norm_theories with
  | none => working
  | some nts =>
    if r.success != 0 && !nts.isEmpty then
      nts.foldl (addOneTheory subCategory r.new_theory_keywords) working
    else working

/-- Structural worker for `chunkList`; the fuel is an upper bound on the
number of chunks and starts at the list length. -/
def chunkAux (n : Nat) : Nat → List α → List (List α)
  | 0, _ => []
  | _, [] => []
  | fuel + 1, a :: rest => (a :: rest.take (n - 1)) :: chunkAux n fuel (rest.drop (n - 1))

/-- Python slicing `papers[i:i+n]` for `i in range(0, len(papers), n)`. -/
def chunkList (n : Nat) (l : List α) : List (List α) :=
  chunkAux n l.length l

/-- The main batch loop of `normalize_theories_sequential` (lines 631-732):
conservative mode passes the seed ontology to every call and never updates
the working copy; learning mode passes and grows the working copy.  One
oracle attempt-list is consumed per batch call. -/
def seqMainLoop (ontology : List OntologyEntry) (conservative : Bool) :
    List (List Paper) → List (List (Except String LLMResponse)) →
    List NormResult → List OntologyEntry →
    List NormResult × List OntologyEntry × List (List (Except String LLMResponse))
  | [], oracles, results, working => (results, working, oracles)
  | batch :: rest, oracles, results, working =>
    let att := oracles.headD []
    let current := if conservative then ontology else working
    let br := normalize_theory_batch batch current att RETRIES conservative
    let working2 :=
      if conservative then working
      else br.foldl (addNewFromResult "Discovered during normalization") working
    seqMainLoop ontology conservative rest oracles.tail (results ++ br) working2

/-- The retry loop of `normalize_theories_sequential` (lines 751-788): each
chunk of failed papers is re-run against the current working ontology, and —
with no conservative-mode guard, unlike the main loop — the working ontology
is updated from the chunk's results. -/
def seqRetryLoop (conservative : Bool) :
    List (List Paper) → List (List (Except String LLMResponse)) →
    List NormResult → List OntologyEntry →
    List NormResult × List OntologyEntry
  | [], _, retryResults, working => (retryResults, working)
  | chunk :: rest, oracles, retryResults, working =>
    let att := oracles.headD []
    let br := normalize_theory_batch chunk working att RETRIES conservative
    let working2 := br.foldl (addNewFromResult "Discovered during retry") working
    seqRetryLoop conservative rest oracles.tail (retryResults ++ br) working2

/-- The final binding of `retry_doi_map = {r['doi']: r for r in retry_results}`:
the last retry record with the given doi. -/
def lookupRetry (retryResults : List NormResult) (doi : String) : Option NormResult :=
  retryResults.reverse.find? (fun r => r.doi == doi)

/-- `normalize_theories_sequential` (`normalize_theories.py` lines 590-805),
returning the result list and the final working ontology (the state the
function persists to `WORKING_ONTOLOGY_JSON`).  `oracles` supplies one
attempt-outcome list per oracle batch call, in call order. -/
def normalize_theories_sequential (papers : List Paper)
    (ontology : List OntologyEntry) (conservative_mode : Bool)
    (oracles : List (List (Except String LLMResponse))) (batchSize : Nat) :
    List NormResult × List OntologyEntry :=
  let paper_batches := chunkList batchSize papers
  let step := seqMainLoop ontology conservative_mode paper_batches oracles [] ontology
  let results := step.1
  let working := step.2.1
  let oraclesLeft := step.2.2
  let failed := results.filter (fun r => r.success == 0)
  if failed.isEmpty then (results, working)
  else
    let failed_dois := failed.map (·.doi)
    let retry_papers := papers.filter (fun p => failed_dois.contains p.doi)
    let retry_batches := chunkList 10 retry_papers
    let retryStep := seqRetryLoop conservative_mode retry_batches oraclesLeft [] working
    let retry_results := retryStep.1
    let working2 := retryStep.2
    let merged := results.map (fun r =>
      match lookupRetry retry_results r.doi with
      | some rr => { rr with retry_attempt := 1 }
      | none => r)
    (merged, working2)

/-- Default paper used with `List.getD`. -/
def dfltPaper : Paper := { doi := "", aging_theory := .str "" }

/-- Default record used with `List.getD`. -/
def dfltResult : NormResult := initResult dfltPaper

/-- Well-formedness of one response item: a present `confidence` field is not
the empty list.  (With an explicitly empty confidence list and a surviving
mapped name, the Python code raises `IndexError` on `confidences[0]` and the
attempt is retried; the reconciliation claims quantify over responses that
carry a confidence per unit, which this captures.) -/
def wellFormedItem (item : ResultItem) : Prop :=
  item.confidence ≠ some (Sum.inr ([] : List ℚ))

/-- Well-formedness of a parsed response: every item is well formed. -/
def wellFormedResp (resp : LLMResponse) : Prop :=
  ∀ item ∈ resp.results, wellFormedItem item

/-- The per-unit invariant of the reconciliation loop: a record carries its
paper's doi and initial theory, and its success flag is 0 or 1. -/
def tracks (p : Paper) (r : NormResult) : Prop :=
  r.doi = p.doi ∧ r.initial_theory = p.aging_theory ∧
    (r.success = 0 ∨ r.success = 1)

/-- Concrete two-unit batch: distinct dois with distinct theory texts. -/
def c2Papers : List Paper :=
  [{ doi := "a", aging_theory := .str "Alpha " }, { doi := "b", aging_theory := .str "beta" }]

/-- Concrete response carrying a result only for the first unit (matching
after lower-casing and trimming), with usage 10/5/15. -/
def c2Resp : LLMResponse :=
  { results := [{
      initial_theory_name := .str "alpha",
      mapped_names := some (.inr [.s "A"]),
      confidence := some (.inr [8]), keywords := [] }],
    prompt_tokens := 10, completion_tokens := 5, total_tokens := 15 }

/-- Concrete conservative-mode scenario, single paper. -/
def c3Paper : Paper := { doi := "d1", aging_theory := .str "quantum aging" }

/-- Concrete seed ontology with the single entry `Foo`. -/
def c3Seed : OntologyEntry :=
  { theoryName := "Foo", seedKeywords := ["k"], category := "c",
    subCategory := "s", mainConcepts := "m" }

/-- First oracle response of the scenario: an empty `results` array, so the
paper's key is not found and the unit fails the main pass. -/
def c3Resp1 : LLMResponse :=
  { results := [], prompt_tokens := 0, completion_tokens := 0, total_tokens := 0 }

/-- Second oracle response (the retry pass): the paper's key maps to
`NEW_foo` with confidence 9.  Conservative validation strips the `NEW_`
prefix and compares case-insensitively, so `foo` matches the seed entry
`Foo` and the mapping is accepted as `NEW_foo`. -/
def c3Resp2 : LLMResponse :=
  { results := [{
      initial_theory_name := .str "quantum aging",
      mapped_names := some (.inr [.s "NEW_foo"]),
      confidence := some (.inr [9]), keywords := ["q"] }],
    prompt_tokens := 10, completion_tokens := 5, total_tokens := 15 }

/-- The scenario run: conservative mode, one main batch call followed by one
retry batch call. -/
def c3Run : List NormResult × List OntologyEntry :=
  normalize_theories_sequential [c3Paper] [c3Seed] true
    [[Except.ok c3Resp1], [Except.ok c3Resp2]] BATCH_SIZE

end NormalizeTheories

/-- Splitting a list by a Boolean predicate preserves the total length. -/
theorem filter_length_split (l : List α) (p : α → Bool) :
    (l.filter p).length + (l.filter (fun a => !(p a))).length = l.length := by
  induction l with
  | nil => rfl
  | cons a t ih =>
    cases h : p a <;> simp [List.filter_cons, h] <;> omega

/-- Claim C1, amended: `get_unprocessed_papers` (with no limit) returns
exactly the eligible corpus records whose doi is absent from the store under
any status — presence in `paper_evaluations`, not success, is the exclusion
criterion — so the pending count is N − P where P counts eligible records
whose doi is present as any row, successful or failed; a failed row is
excluded until it is explicitly deleted. -/
theorem claim_C1_amended (corpus : List ProcessPapers.PaperRec)
    (store : ProcessPapers.Store) :
    (∀ p, p ∈ ProcessPapers.get_unprocessed_papers corpus store none ↔
      (p ∈ corpus ∧ ProcessPapers.eligibleQ p = true ∧
        (store.map (fun r => r.doi)).contains (p.doi.getD "") = false)) ∧
    (ProcessPapers.get_unprocessed_papers corpus store none).length +
      ((corpus.filter ProcessPapers.eligibleQ).filter
        (fun p => (store.map (fun r => r.doi)).contains (p.doi.getD ""))).length =
      (corpus.filter ProcessPapers.eligibleQ).length := by
  constructor
  · intro p
    simp [ProcessPapers.get_unprocessed_papers, List.mem_filter, and_assoc]
    tauto
  · have h := filter_length_split (corpus.filter ProcessPapers.eligibleQ)
      (fun p => (store.map (fun r => r.doi)).contains (p.doi.getD ""))
    simp only [ProcessPapers.get_unprocessed_papers]
    omega

/-- Claim C1 is false on the code: with one eligible corpus record and a
store holding a single failed row (zero successful rows) for that doi,
`get_unprocessed_papers` returns 0 keys, not N − K = 1: a failed row is
excluded from the pending set. -/
theorem claim_C1_counterexample :
    ((([ProcessPapers.sampleRow "a" 0] : ProcessPapers.Store).filter
      (fun r => r.success == 1)).length = 0) ∧
    (([ProcessPapers.samplePaper "a"].filter ProcessPapers.eligibleQ).length = 1) ∧
    (ProcessPapers.get_unprocessed_papers [ProcessPapers.samplePaper "a"]
      [ProcessPapers.sampleRow "a" 0] none).length ≠ 1 - 0 := by
  decide

/-- Claim C4: `save_result` is an idempotent upsert on the `doi` primary
key — writing the same payload twice equals writing it once, the rows for
that doi reduce to exactly the written row, and doi-uniqueness of the store
is preserved (re-processing overwrites rather than duplicates). -/
theorem claim_C4_theorem (store : ProcessPapers.Store) (r : ProcessPapers.EvalRow) :
    ProcessPapers.save_result (ProcessPapers.save_result store r) r =
      ProcessPapers.save_result store r ∧
    (ProcessPapers.save_result (ProcessPapers.save_result store r) r).filter
      (fun x => x.doi == r.doi) = [r] ∧
    ((store.map (fun x => x.doi)).Nodup →
      ((ProcessPapers.save_result store r).map (fun x => x.doi)).Nodup) := by
  refine ⟨?_, ?_, ?_⟩
  · simp [ProcessPapers.save_result, List.filter_append, List.filter_filter]
  · simp [ProcessPapers.save_result, List.filter_append, List.filter_filter]
  · intro h
    simp only [ProcessPapers.save_result, List.map_append, List.map_cons, List.map_nil]
    rw [List.nodup_append]
    refine ⟨h.sublist ((List.filter_sublist store).map (fun x => x.doi)), by simp, ?_⟩
    intro a ha
    simp only [List.mem_map, List.mem_filter] at ha
    obtain ⟨x, ⟨-, hq⟩, rfl⟩ := ha
    simp only [List.mem_singleton]
    exact bne_iff_ne.mp hq

/-- Witness for claim C4 at a concrete store and row: the uniqueness
hypothesis is discharged on a one-row store. -/
theorem claim_C4_witness :
    (([ProcessPapers.sampleRow "b" 1] : ProcessPapers.Store).map
      (fun x => x.doi)).Nodup ∧
    ((ProcessPapers.save_result [ProcessPapers.sampleRow "b" 1]
      (ProcessPapers.sampleRow "a" 1)).map (fun x => x.doi)).Nodup :=
  ⟨by decide, (claim_C4_theorem [ProcessPapers.sampleRow "b" 1]
    (ProcessPapers.sampleRow "a" 1)).2.2 (by decide)⟩

/-- Claim C7, amended: an unrecoverable setup failure detected by
`validate_runtime` aborts the run before any unit is dispatched, but the
process still exits with code 0 — `process_papers_parallel` returns `None`
on every failure path and `__main__` never calls `sys.exit`, so the exit
code is 0 on success and on setup failure alike. -/
theorem claim_C7_theorem (e : ProcessPapers.Env) (init_ok : Bool)
    (fetched : Except String (List ProcessPapers.PaperRec)) :
    ((ProcessPapers.validate_runtime e).1 = false →
      (ProcessPapers.process_papers_parallel e init_ok fetched).dispatched = false ∧
      (ProcessPapers.process_papers_parallel e init_ok fetched).abort =
        some ProcessPapers.AbortReason.validationFailed) ∧
    ProcessPapers.script_exit_code e init_ok fetched = 0 := by
  refine ⟨fun h => ?_, rfl⟩
  simp [ProcessPapers.process_papers_parallel, h]

/-- Claim C7 is false on the code at a concrete input: with every setup
requirement satisfied except the API key, validation fails and the run
aborts before dispatch, yet the process exit code is 0, not non-zero. -/
theorem claim_C7_counterexample :
    (ProcessPapers.validate_runtime ProcessPapers.envMissingKey).1 = false ∧
    (ProcessPapers.process_papers_parallel ProcessPapers.envMissingKey true
      (Except.ok [ProcessPapers.samplePaper "a"])).dispatched = false ∧
    ProcessPapers.script_exit_code ProcessPapers.envMissingKey true
      (Except.ok [ProcessPapers.samplePaper "a"]) = 0 := by
  decide

/-- Witness for claim C7 at a concrete failing environment. -/
theorem claim_C7_witness :
    (ProcessPapers.process_papers_parallel ProcessPapers.envMissingKey false
      (Except.error "boom")).dispatched = false ∧
    ProcessPapers.script_exit_code ProcessPapers.envMissingKey false
      (Except.error "boom") = 0 :=
  ⟨((claim_C7_theorem ProcessPapers.envMissingKey false (Except.error "boom")).1
      (by decide)).1,
    (claim_C7_theorem ProcessPapers.envMissingKey false (Except.error "boom")).2⟩

/-- Dropping while a predicate holds skips any leading block on which the
predicate holds everywhere. -/
theorem dropWhile_append_all (p : α → Bool) (l1 l2 : List α)
    (h : ∀ c ∈ l1, p c = true) :
    List.dropWhile p (l1 ++ l2) = List.dropWhile p l2 := by
  induction l1 with
  | nil => rfl
  | cons a t ih =>
    simp only [List.cons_append, List.dropWhile_cons, h a (by simp), if_true]
    exact ih (fun c hc => h c (by simp [hc]))

/-- Stripping by a predicate on both ends of a list decomposed as a
strippable prefix, a body whose first and last elements are not strippable,
and a strippable suffix, returns exactly the body. -/
theorem stripList_eq (p : Char → Bool) (pre mid suf : List Char)
    (hpre : ∀ c ∈ pre, p c = true) (hsuf : ∀ c ∈ suf, p c = true)
    (hh : ∀ c ∈ mid.head?, p c = false) (hl : ∀ c ∈ mid.getLast?, p c = false) :
    ((List.dropWhile p (pre ++ mid ++ suf)).reverse.dropWhile p).reverse = mid := by
  rw [List.append_assoc, dropWhile_append_all p pre _ hpre]
  cases mid with
  | nil =>
    have h1 : List.dropWhile p suf = [] := by
      have h2 := dropWhile_append_all p suf [] hsuf
      simpa using h2
    simp [h1]
  | cons c t =>
    have hc : p c = false := hh c (by simp)
    rw [List.cons_append, List.dropWhile_cons, hc]
    simp only [Bool.false_eq_true, if_false]
    rw [show c :: (t ++ suf) = (c :: t) ++ suf from rfl, List.reverse_append,
      dropWhile_append_all p suf.reverse _ (fun x hx => hsuf x (List.mem_reverse.mp hx))]
    obtain ⟨d, t2, hrev⟩ : ∃ d t2, (c :: t).reverse = d :: t2 :=
      List.exists_cons_of_ne_nil (by simp)
    have hgl : (c :: t).getLast? = some d := by
      rw [← List.head?_reverse, hrev]; rfl
    have hdf : p d = false := hl d (by rw [hgl]; rfl)
    rw [hrev, List.dropWhile_cons, hdf]
    simp only [Bool.false_eq_true, if_false]
    rw [← hrev, List.reverse_reverse]

/-- Python `str.strip(chars)` on a string decomposed as a strippable prefix,
a body whose first and last characters are not strippable, and a strippable
suffix, returns exactly the body. -/
theorem pyStrip_decomp (chars : String) (pre mid suf : List Char) (s : String)
    (hs : s.data = pre ++ mid ++ suf)
    (hpre : ∀ c ∈ pre, chars.data.contains c = true)
    (hsuf : ∀ c ∈ suf, chars.data.contains c = true)
    (hh : ∀ c ∈ mid.head?, chars.data.contains c = false)
    (hl : ∀ c ∈ mid.getLast?, chars.data.contains c = false) :
    LlmJudge.pyStrip chars s = String.mk mid := by
  unfold LlmJudge.pyStrip
  rw [hs]
  exact congrArg String.mk
    (stripList_eq (fun c => chars.data.contains c) pre mid suf hpre hsuf hh hl)

/-- Claim C8: for an oracle response whose content is a JSON object wrapped
in markdown code fences (`"```json\n" ++ inner ++ "\n```"`, the inner payload
opening with a left brace and closing with a right brace), the judge client's
fence-cleaning step recovers exactly the inner payload — so `json.loads`
parses the same text as parsing the inner payload directly — and responses
not beginning with the fence marker are passed to the parser unchanged. -/
theorem claim_C8_theorem (mid : List Char)
    (hfirst : mid.head? = some LlmJudge.lbrace)
    (hlast : mid.getLast? = some LlmJudge.rbrace) :
    LlmJudge.cleanResponse ("```json\n" ++ String.mk mid ++ "\n```") = String.mk mid ∧
    (∀ s : String, Py.pyStartsWith "```" s = false → LlmJudge.cleanResponse s = s) := by
  constructor
  · have hw : ("```json\n" ++ String.mk mid ++ "\n```").data =
        "```json\n".data ++ mid ++ "\n```".data := by
      simp [String.data_append]
    have hstart : Py.pyStartsWith "```" ("```json\n" ++ String.mk mid ++ "\n```") = true := by
      unfold Py.pyStartsWith
      rw [hw, List.append_assoc]
      simp only [List.isPrefixOf_iff_prefix]
      exact List.IsPrefix.trans (by decide) (List.prefix_append _ _)
    unfold LlmJudge.cleanResponse
    rw [hstart]
    simp only [if_true]
    refine pyStrip_decomp _ _ _ _ _ hw (by decide) (by decide) ?_ ?_
    · intro c hc
      rw [hfirst] at hc
      cases hc
      decide
    · intro c hc
      rw [hlast] at hc
      cases hc
      decide
  · intro s h
    unfold LlmJudge.cleanResponse
    rw [h]
    simp

/-- Witness for claim C8 at the concrete inner payload `{}` and the concrete
unfenced response `plain`. -/
theorem claim_C8_witness :
    LlmJudge.cleanResponse
      ("```json\n" ++ String.mk [LlmJudge.lbrace, LlmJudge.rbrace] ++ "\n```") =
      String.mk [LlmJudge.lbrace, LlmJudge.rbrace] ∧
    LlmJudge.cleanResponse "plain" = "plain" := by
  have h := claim_C8_theorem [LlmJudge.lbrace, LlmJudge.rbrace] (by decide) (by decide)
  exact ⟨h.1, h.2 "plain" (by decide)⟩

/-- The retry loop of the judge client never makes more oracle calls than it
has fuel for. -/
theorem judgeLoop_calls_le {α : Type} (parse : String → Except String α)
    (oracle : Nat → LlmJudge.CallOutcome) (jitter : Nat → ℚ) (retries : Nat) :
    ∀ (fuel n calls : Nat) (sleeps : List ℚ),
      (LlmJudge.judgeLoop parse oracle jitter retries fuel n calls sleeps).calls ≤
        calls + fuel := by
  intro fuel
  induction fuel with
  | zero =>
    intro n calls sleeps
    simp [LlmJudge.judgeLoop]
  | succ f ih =>
    intro n calls sleeps
    unfold LlmJudge.judgeLoop
    rcases h : oracle n with ⟨content, usage⟩ | msg | msg <;> dsimp only
    · rcases hp : parse (LlmJudge.cleanResponse content) with e | v <;> dsimp only
      · by_cases hlt : n + 1 < retries
        · rw [if_pos hlt]
          exact le_trans (ih (n + 1) (calls + 1) _) (by omega)
        · rw [if_neg hlt]
          dsimp only
          omega
      · omega
    · by_cases hlt : n + 1 < retries
      · rw [if_pos hlt]
        exact le_trans (ih (n + 1) (calls + 1) _) (by omega)
      · rw [if_neg hlt]
        dsimp only
        omega
    · by_cases hlt : n + 1 < retries
      · rw [if_pos hlt]
        exact le_trans (ih (n + 1) (calls + 1) _) (by omega)
      · rw [if_neg hlt]
        dsimp only
        omega

/-- When every remaining attempt is rate-limited, the retry loop exhausts its
fuel, makes one call per unit of fuel, sleeps the exponential backoff plus
jitter between attempts, and raises the message carrying the last
underlying error. -/
theorem judgeLoop_rateLimited {α : Type} (parse : String → Except String α)
    (oracle : Nat → LlmJudge.CallOutcome) (jitter : Nat → ℚ) (retries : Nat)
    (msg : Nat → String)
    (hall : ∀ i, i < retries → oracle i = .rateLimit (msg i)) :
    ∀ (fuel n calls : Nat) (sleeps : List ℚ), n + fuel = retries → 0 < fuel →
      LlmJudge.judgeLoop parse oracle jitter retries fuel n calls sleeps =
        ⟨.error ("Rate limit exceeded after " ++ toString retries ++ " retries: " ++
            msg (retries - 1)),
          calls + fuel,
          sleeps.reverse ++ (List.range (fuel - 1)).map
            (fun k => LlmJudge.RATE_LIMIT_WAIT * 2 ^ (n + k) + jitter (n + k))⟩ := by
  intro fuel
  induction fuel with
  | zero =>
    intro n calls sleeps hnf h0
    omega
  | succ f ih =>
    intro n calls sleeps hnf h0
    unfold LlmJudge.judgeLoop
    rw [hall n (by omega)]
    dsimp only
    by_cases hlt : n + 1 < retries
    · have hf : 0 < f := by omega
      rw [if_pos hlt]
      rw [ih (n + 1) (calls + 1) _ (by omega) hf]
      obtain ⟨g, rfl⟩ : ∃ g, f = g + 1 := ⟨f - 1, by omega⟩
      congr 1
      · omega
      · rw [List.reverse_cons, List.append_assoc]
        congr 1
        rw [show g + 1 - 1 = g from rfl, show g + 1 + 1 - 1 = g + 1 from rfl,
          List.range_succ_eq_map, List.map_cons, List.map_map,
          List.singleton_append]
        congr 1
        apply List.map_congr_left
        intro k hk
        dsimp only [Function.comp]
        have h1 : n + 1 + k = n + (k + 1) := by omega
        rw [h1]
    · have hf0 : f = 0 := by omega
      subst hf0
      rw [if_neg hlt]
      have hn : n = retries - 1 := by omega
      rw [hn]
      simp

/-- Claim C6: when the oracle raises a rate-limit error on every attempt,
`llm_judge` makes exactly `RETRIES` calls, sleeps
`RATE_LIMIT_WAIT * 2^(n-1)` plus the drawn jitter after the n-th failed
attempt (for n = 1 .. RETRIES-1), finally raises an error whose message
carries the last underlying error message, and — for every oracle
behaviour — never makes more than `RETRIES` calls. -/
theorem claim_C6_theorem {α : Type} (parse : String → Except String α)
    (oracle : Nat → LlmJudge.CallOutcome) (jitter : Nat → ℚ) (msg : Nat → String)
    (hall : ∀ i, i < LlmJudge.RETRIES → oracle i = .rateLimit (msg i)) :
    (LlmJudge.llm_judge parse oracle jitter LlmJudge.RETRIES).result =
      .error ("Rate limit exceeded after " ++ toString LlmJudge.RETRIES ++
        " retries: " ++ msg (LlmJudge.RETRIES - 1)) ∧
    (LlmJudge.llm_judge parse oracle jitter LlmJudge.RETRIES).calls =
      LlmJudge.RETRIES ∧
    (LlmJudge.llm_judge parse oracle jitter LlmJudge.RETRIES).sleeps =
      (List.range (LlmJudge.RETRIES - 1)).map
        (fun k => LlmJudge.RATE_LIMIT_WAIT * 2 ^ k + jitter k) ∧
    (∀ (parse2 : String → Except String α) (oracle2 : Nat → LlmJudge.CallOutcome)
      (jitter2 : Nat → ℚ),
      (LlmJudge.llm_judge parse2 oracle2 jitter2 LlmJudge.RETRIES).calls ≤
        LlmJudge.RETRIES) := by
  have h := judgeLoop_rateLimited parse oracle jitter LlmJudge.RETRIES msg hall
    LlmJudge.RETRIES 0 0 [] (by omega) (by decide)
  unfold LlmJudge.llm_judge
  rw [h]
  refine ⟨rfl, by simp, ?_, ?_⟩
  · simp
  · intro parse2 oracle2 jitter2
    exact le_trans (judgeLoop_calls_le parse2 oracle2 jitter2 LlmJudge.RETRIES
      LlmJudge.RETRIES 0 0 []) (by omega)

/-- Witness for claim C6: a concrete oracle that is rate-limited on every
attempt with message `429`. -/
theorem claim_C6_witness :
    (LlmJudge.llm_judge (fun _ => (Except.error "e" : Except String Unit))
      (fun _ => LlmJudge.CallOutcome.rateLimit "429") (fun _ => 0)
      LlmJudge.RETRIES).result =
      Except.error ("Rate limit exceeded after " ++ toString LlmJudge.RETRIES ++
        " retries: " ++ "429") ∧
    (LlmJudge.llm_judge (fun _ => (Except.error "e" : Except String Unit))
      (fun _ => LlmJudge.CallOutcome.rateLimit "429") (fun _ => 0)
      LlmJudge.RETRIES).calls = LlmJudge.RETRIES := by
  have h := claim_C6_theorem (fun _ => (Except.error "e" : Except String Unit))
    (fun _ => LlmJudge.CallOutcome.rateLimit "429") (fun _ => 0) (fun _ => "429")
    (fun _ _ => rfl)
  exact ⟨h.1, h.2.1⟩

/-- Claim C3 concerns a code bug, evaluated here at a concrete failing
input: in conservative mode, a run whose main pass fails one unit and whose
retry pass maps it to `NEW_foo` (accepted by conservative validation because
the prefix-stripped, lower-cased name matches the seed entry `Foo`) ends
with the working ontology grown from 1 to 2 entries — the retry pass updates
the ontology without the conservative-mode guard used by the main pass,
contradicting both the claim and the code's own `no learning across batches`
conservative-mode contract. -/
theorem claim_C3_evaluation :
    NormalizeTheories.c3Run.2.map (fun t => t.theoryName) = ["Foo", "foo"] ∧
    NormalizeTheories.c3Run.2.length ≠ [NormalizeTheories.c3Seed].length ∧
    NormalizeTheories.c3Run.1.map (fun r => r.success) = [1] := by
  decide

namespace NormalizeTheories

/-- The `norm_theories` builder succeeds whenever there is no name to pair or
at least one confidence to fall back on. -/
theorem buildNormAux_isOk (c : Bool) (pt : TheoryVal) (confs : List ℚ) :
    ∀ (names : List String) (i : Nat), names = [] ∨ confs ≠ [] →
      ∃ l, buildNormAux c pt confs i names = Except.ok l := by
  intro names
  induction names with
  | nil => exact fun i _ => ⟨[], rfl⟩
  | cons name rest ih =>
    intro i h
    have hc : confs ≠ [] := by
      rcases h with h | h
      · exact absurd h (by simp)
      · exact h
    obtain ⟨q, hq⟩ :
        ∃ q, ((confs.get? i).orElse (fun _ => confs.get? 0)) = some q := by
      cases hgi : confs.get? i with
      | some q => exact ⟨q, by simp [Option.orElse, hgi]⟩
      | none =>
        cases hc0 : confs.get? 0 with
        | some q => exact ⟨q, by simp [Option.orElse, hgi, hc0]⟩
        | none =>
          exfalso
          apply hc
          cases confs with
          | nil => rfl
          | cons a t => simp at hc0
    obtain ⟨l, hl⟩ := ih (i + 1) (Or.inr hc)
    exact ⟨_, by unfold buildNormAux; rw [hq, hl]⟩

/-- The `norm_theories` builder always succeeds on the unzipped components of
a pair list, as produced by the conservative-mode filter. -/
theorem buildNormAux_zip_isOk (c : Bool) (pt : TheoryVal)
    (fp : List (String × ℚ)) (i : Nat) :
    ∃ l, buildNormAux c pt (fp.map (fun pc => pc.2)) i
      (fp.map (fun pc => pc.1)) = Except.ok l := by
  apply buildNormAux_isOk
  cases fp with
  | nil => exact Or.inl rfl
  | cons p t => exact Or.inr (by simp)

/-- A hit in the response dict is an item of the response whose normalized
key is the looked-up key. -/
theorem findLast_mem {l : List ResultItem} {k : String} {item : ResultItem}
    (h : findLast l k = some item) :
    item ∈ l ∧ normalize_theory_key item.initial_theory_name = k := by
  unfold findLast at h
  refine ⟨List.mem_reverse.mp (List.mem_of_find?_eq_some h), ?_⟩
  have h2 := List.find?_some h
  simpa using h2

/-- Any successful `applyItem` result is either an unresolved (`null`) record
or an accepted-match record for the paper's own key. -/
theorem applyItem_shape {ctx : BatchCtx} {paper : Paper} {r0 : NormResult}
    {item : ResultItem} {v : NormResult}
    (h : applyItem ctx paper r0 item = Except.ok v) :
    (∃ m, v = nullShares ctx r0 m) ∨
    (∃ nts kw, v = finishMatch ctx r0
      (normalize_theory_key paper.aging_theory) nts kw) := by
  unfold applyItem at h
  dsimp only at h
  repeat' split at h
  all_goals try exact Except.noConfusion h
  all_goals injection h with h2
  all_goals first
    | exact Or.inl ⟨_, h2.symm⟩
    | exact Or.inr ⟨_, _, h2.symm⟩

/-- Field values common to every successful `applyItem` result: the unit is
marked success, the identifying fields are untouched, and the pro-rata
shares are assigned. -/
theorem applyItem_ok_fields {ctx : BatchCtx} {paper : Paper} {r0 : NormResult}
    {item : ResultItem} {v : NormResult}
    (h : applyItem ctx paper r0 item = Except.ok v) :
    v.success = 1 ∧ v.doi = r0.doi ∧ v.initial_theory = r0.initial_theory ∧
    v.prompt_tokens = ctx.pTok / ctx.B ∧ v.completion_tokens = ctx.cTok / ctx.B ∧
    v.total_tokens = ctx.tTok / ctx.B ∧ v.cost_usd = costShare ctx := by
  rcases applyItem_shape h with ⟨m, rfl⟩ | ⟨nts, kw, rfl⟩ <;>
    simp [nullShares, finishMatch]

/-- On a well-formed item, `applyItem` never raises. -/
theorem applyItem_ne_error {ctx : BatchCtx} {paper : Paper} {r0 : NormResult}
    {item : ResultItem} (hwf : wellFormedItem item) (e : String) :
    applyItem ctx paper r0 item ≠ Except.error e := by
  unfold applyItem
  dsimp only
  split
  · simp
  · simp
  · rename_i mn cf hmn hcf
    split
    · split
      · simp
      · split
        · simp
        · split
          · simp
          · obtain ⟨l, hl⟩ := buildNormAux_zip_isOk true paper.aging_theory _ 0
            rw [hl]
            simp
    · have hcne : ensureConfList cf ≠ [] := by
        cases cf with
        | inl q => simp [ensureConfList]
        | inr lc =>
          simp only [ensureConfList]
          intro hnil
          subst hnil
          exact hwf (by rw [hcf])
      obtain ⟨l, hl⟩ := buildNormAux_isOk false paper.aging_theory
        (ensureConfList cf) ((ensureNameList mn).filterMap asStr) 0 (Or.inr hcne)
      rw [hl]
      simp

/-- On a well-formed item, `applyItem` never raises. -/
theorem applyItem_isOk (ctx : BatchCtx) (paper : Paper) (r0 : NormResult)
    {item : ResultItem} (hwf : wellFormedItem item) :
    ∃ v, applyItem ctx paper r0 item = Except.ok v := by
  cases hres : applyItem ctx paper r0 item with
  | ok v => exact ⟨v, rfl⟩
  | error e => exact absurd hres (applyItem_ne_error hwf e)

end NormalizeTheories

namespace NormalizeTheories

/-- When the key is absent from the response dict, `processOne` marks the
unit failed with the not-found reason and assigns the pro-rata shares. -/
theorem processOneOk_notFound {ctx : BatchCtx} {paper : Paper} {r0 : NormResult}
    (hfl : findLast ctx.resultList (normalize_theory_key paper.aging_theory) = none) :
    processOneOk ctx paper r0 = { r0 with
      success := 0,
      error_message := some ("Theory not found in LLM response: " ++
        normalize_theory_key paper.aging_theory),
      prompt_tokens := ctx.pTok / ctx.B, completion_tokens := ctx.cTok / ctx.B,
      total_tokens := ctx.tTok / ctx.B, cost_usd := costShare ctx } := by
  unfold processOneOk processOne
  dsimp only
  rw [hfl]

/-- When the key hits an item of the response dict, the unit's final record
is exactly the result of applying that item. -/
theorem processOneOk_found (ctx : BatchCtx) (paper : Paper) (r0 : NormResult)
    {item : ResultItem}
    (hfl : findLast ctx.resultList (normalize_theory_key paper.aging_theory) = some item)
    (hwf : wellFormedItem item) :
    applyItem ctx paper r0 item = Except.ok (processOneOk ctx paper r0) := by
  obtain ⟨v, hv⟩ := applyItem_isOk ctx paper r0 hwf
  unfold processOneOk processOne
  dsimp only
  rw [hfl]
  dsimp only
  rw [hv]

/-- Under a well-formed response, `processOne` never raises. -/
theorem processOne_ok_eq {ctx : BatchCtx} {paper : Paper} {r0 : NormResult}
    (hwf : ∀ it ∈ ctx.resultList, wellFormedItem it) :
    processOne ctx paper r0 = Except.ok (processOneOk ctx paper r0) := by
  unfold processOneOk processOne
  dsimp only
  cases hfl : findLast ctx.resultList (normalize_theory_key paper.aging_theory) with
  | none => rfl
  | some item =>
    obtain ⟨v, hv⟩ := applyItem_isOk ctx paper r0 (hwf item (findLast_mem hfl).1)
    dsimp only
    rw [hv]

/-- Every unit of a reconciled batch receives the same pro-rata shares,
matched or not. -/
theorem processOneOk_shares (ctx : BatchCtx) (paper : Paper) (r0 : NormResult)
    (hwf : ∀ it ∈ ctx.resultList, wellFormedItem it) :
    (processOneOk ctx paper r0).prompt_tokens = ctx.pTok / ctx.B ∧
    (processOneOk ctx paper r0).completion_tokens = ctx.cTok / ctx.B ∧
    (processOneOk ctx paper r0).total_tokens = ctx.tTok / ctx.B ∧
    (processOneOk ctx paper r0).cost_usd = costShare ctx := by
  cases hfl : findLast ctx.resultList (normalize_theory_key paper.aging_theory) with
  | none => rw [processOneOk_notFound hfl]; exact ⟨rfl, rfl, rfl, rfl⟩
  | some item =>
    have h := processOneOk_found ctx paper r0 hfl (hwf item (findLast_mem hfl).1)
    have hf := applyItem_ok_fields h
    exact ⟨hf.2.2.2.1, hf.2.2.2.2.1, hf.2.2.2.2.2.1, hf.2.2.2.2.2.2⟩

/-- Under a well-formed response, the reconciliation loop visits every unit
and raises nothing. -/
theorem processAll_ok (ctx : BatchCtx)
    (hwf : ∀ it ∈ ctx.resultList, wellFormedItem it) :
    ∀ (ps : List Paper) (rs : List NormResult), rs.length = ps.length →
      processAll ctx ps rs =
        (List.zipWith (fun p r => processOneOk ctx p r) ps rs, none) := by
  intro ps
  induction ps with
  | nil =>
    intro rs h
    have hrs : rs = [] := List.eq_nil_of_length_eq_zero h
    subst hrs
    rfl
  | cons p pt ih =>
    intro rs h
    cases rs with
    | nil => simp at h
    | cons r rt =>
      have h2 : rt.length = pt.length := by simpa using h
      unfold processAll
      rw [processOne_ok_eq hwf]
      dsimp only
      rw [ih rt h2]
      simp [List.zipWith_cons_cons]

/-- Zipping a list against its own image collapses to a single map. -/
theorem zipWith_map_self (f : α → β → γ) (g : α → β) :
    ∀ l : List α, List.zipWith f l (l.map g) = l.map (fun a => f a (g a)) := by
  intro l
  induction l with
  | nil => rfl
  | cons a t ih => simp [ih]

/-- `getD` through a `map`, below the length. -/
theorem map_getD_lt (f : α → β) (l : List α) (d : β) (dp : α) :
    ∀ i, i < l.length → (l.map f).getD i d = f (l.getD i dp) := by
  induction l with
  | nil => intro i h; simp at h
  | cons a t ih =>
    intro i h
    cases i with
    | zero => simp
    | succ j =>
      simp only [List.map_cons, List.getD_cons_succ]
      exact ih j (by simpa using h)

/-- A single parsed, well-formed response reconciles the whole batch in one
attempt: the output is the per-unit map of `processOneOk`. -/
theorem batch_single_ok (papers : List Paper) (ontology : List OntologyEntry)
    (conservative : Bool) (resp : LLMResponse) (hwf : wellFormedResp resp) :
    normalize_theory_batch papers ontology [Except.ok resp] RETRIES conservative =
      papers.map (fun p =>
        processOneOk (mkCtx resp papers.length ontology conservative) p
          (initResult p)) := by
  unfold normalize_theory_batch
  rw [show ([Except.ok resp] : List (Except String LLMResponse)).take RETRIES =
    [Except.ok resp] from rfl]
  unfold attemptLoop
  dsimp only
  have hwf2 : ∀ it ∈ (mkCtx resp papers.length ontology conservative).resultList,
      wellFormedItem it := hwf
  have hlen : (initResults papers).length = papers.length := by
    simp [initResults]
  rw [processAll_ok _ hwf2 papers (initResults papers) hlen]
  dsimp only
  unfold initResults
  rw [zipWith_map_self]

end NormalizeTheories

namespace NormalizeTheories

/-- The initial records carry their papers' identifiers. -/
theorem initResults_tracks (papers : List Paper) :
    List.Forall₂ tracks papers (initResults papers) := by
  induction papers with
  | nil => exact List.Forall₂.nil
  | cons p pt ih =>
    exact List.Forall₂.cons ⟨rfl, rfl, Or.inl rfl⟩ ih

/-- A pointwise-invariant-preserving map preserves `Forall₂`. -/
theorem forall₂_map_right {R : α → β → Prop} (f : β → β)
    (hf : ∀ a b, R a b → R a (f b)) :
    ∀ (l1 : List α) (l2 : List β), List.Forall₂ R l1 l2 →
      List.Forall₂ R l1 (l2.map f) := by
  intro l1 l2 h
  induction h with
  | nil => exact List.Forall₂.nil
  | cons hab htl ih =>
    exact List.Forall₂.cons (hf _ _ hab) ih

/-- A membership on the right of a `Forall₂` has a related witness. -/
theorem forall₂_mem_right {R : α → β → Prop} :
    ∀ {l1 : List α} {l2 : List β}, List.Forall₂ R l1 l2 →
      ∀ b ∈ l2, ∃ a ∈ l1, R a b := by
  intro l1 l2 h
  induction h with
  | nil => intro b hb; simp at hb
  | cons hab htl ih =>
    intro b hb
    rcases List.mem_cons.mp hb with rfl | hb2
    · exact ⟨_, by simp, hab⟩
    · obtain ⟨a, ha, har⟩ := ih b hb2
      exact ⟨a, by simp [ha], har⟩

/-- One reconciliation step keeps the unit invariant. -/
theorem processOne_tracks {ctx : BatchCtx} {p : Paper} {r v : NormResult}
    (h : processOne ctx p r = Except.ok v) (ht : tracks p r) : tracks p v := by
  unfold processOne at h
  dsimp only at h
  cases hfl : findLast ctx.resultList (normalize_theory_key p.aging_theory) with
  | none =>
    rw [hfl] at h
    injection h with h2
    subst h2
    exact ⟨ht.1, ht.2.1, Or.inl rfl⟩
  | some item =>
    rw [hfl] at h
    have hf := applyItem_ok_fields h
    exact ⟨hf.2.1.trans ht.1, hf.2.2.1.trans ht.2.1, Or.inr hf.1⟩

/-- The reconciliation loop keeps the unit invariant, raising or not. -/
theorem processAll_tracks (ctx : BatchCtx) :
    ∀ (ps : List Paper) (rs : List NormResult), List.Forall₂ tracks ps rs →
      List.Forall₂ tracks ps (processAll ctx ps rs).1 := by
  intro ps
  induction ps with
  | nil =>
    intro rs h
    exact h
  | cons p pt ih =>
    intro rs h
    cases h with
    | cons hpr htl =>
      rename_i r rt
      cases hpo : processOne ctx p r with
      | error e =>
        unfold processAll
        rw [hpo]
        exact List.Forall₂.cons hpr htl
      | ok v =>
        unfold processAll
        rw [hpo]
        dsimp only
        exact List.Forall₂.cons (processOne_tracks hpo hpr) (ih rt htl)

/-- The attempt loop keeps the unit invariant through every retry. -/
theorem attemptLoop_tracks (papers : List Paper) (ontology : List OntologyEntry)
    (conservative : Bool) :
    ∀ (attempts : List (Except String LLMResponse)) (rs : List NormResult),
      List.Forall₂ tracks papers rs →
      List.Forall₂ tracks papers
        (attemptLoop papers ontology conservative attempts rs) := by
  intro attempts
  induction attempts with
  | nil =>
    intro rs h
    unfold attemptLoop
    exact forall₂_map_right _ (fun p r hr => ⟨hr.1, hr.2.1, Or.inl rfl⟩) papers rs h
  | cons a rest ih =>
    intro rs h
    cases a with
    | error e =>
      unfold attemptLoop
      exact ih _ (forall₂_map_right _ (fun p r hr => ⟨hr.1, hr.2.1, hr.2.2⟩) papers rs h)
    | ok resp =>
      unfold attemptLoop
      dsimp only
      have h2 := processAll_tracks (mkCtx resp papers.length ontology conservative)
        papers rs h
      rcases hpa : processAll (mkCtx resp papers.length ontology conservative) papers rs
        with ⟨rs2, eo⟩
      rw [hpa] at h2
      cases eo with
      | none => exact h2
      | some e =>
        exact ih _ (forall₂_map_right _ (fun p r hr => ⟨hr.1, hr.2.1, hr.2.2⟩) papers rs2 h2)

/-- When every consumed attempt fails, the loop marks every unit failed with
the last error message. -/
theorem attemptLoop_errors (papers : List Paper) (ontology : List OntologyEntry)
    (conservative : Bool) :
    ∀ (errs : List String) (e : String) (rs : List NormResult),
      errs.getLast? = some e →
      ∀ r ∈ attemptLoop papers ontology conservative (errs.map Except.error) rs,
        r.success = 0 ∧ r.error_message = some e := by
  intro errs
  induction errs with
  | nil =>
    intro e rs h
    simp at h
  | cons e0 tl ih =>
    intro e rs hlast r hr
    cases tl with
    | nil =>
      have he : e0 = e := by simpa using hlast
      subst he
      simp only [List.map_cons, List.map_nil] at hr
      unfold attemptLoop at hr
      unfold attemptLoop at hr
      simp only [List.map_map] at hr
      obtain ⟨r0, hr0, rfl⟩ := List.mem_map.mp hr
      exact ⟨rfl, rfl⟩
    | cons e1 tl2 =>
      have hlast2 : (e1 :: tl2).getLast? = some e := by
        rwa [List.getLast?_cons_cons] at hlast
      simp only [List.map_cons] at hr
      unfold attemptLoop at hr
      exact ih e _ hlast2 r (by simpa using hr)

end NormalizeTheories

namespace NormalizeTheories

/-- The concrete response `c2Resp` is well formed. -/
theorem c2Resp_wf : wellFormedResp c2Resp := by
  unfold wellFormedResp wellFormedItem
  decide

/-- Claim C2: for every submitted batch and every parsed response (possibly
short, reordered, or with duplicate keys), `normalize_theory_batch` matches
each unit by its normalized content key: the output has one record per unit;
a unit whose key misses the response dict is marked failed (success 0) with
the non-null not-found reason; a unit whose key hits is marked success and
its record is exactly the application of a response item whose normalized key
equals the unit's own key — no cross-assignment — and a short response fails
only the unmatched units, not the batch. -/
theorem claim_C2_theorem (papers : List Paper) (ontology : List OntologyEntry)
    (conservative : Bool) (resp : LLMResponse) (hwf : wellFormedResp resp) :
    (normalize_theory_batch papers ontology [Except.ok resp] RETRIES
      conservative).length = papers.length ∧
    ∀ i, i < papers.length →
      (findLast resp.results (normalize_theory_key
          (papers.getD i dfltPaper).aging_theory) = none →
        ((normalize_theory_batch papers ontology [Except.ok resp] RETRIES
            conservative).getD i dfltResult).success = 0 ∧
        ((normalize_theory_batch papers ontology [Except.ok resp] RETRIES
            conservative).getD i dfltResult).error_message =
          some ("Theory not found in LLM response: " ++
            normalize_theory_key (papers.getD i dfltPaper).aging_theory)) ∧
      (∀ item, findLast resp.results (normalize_theory_key
          (papers.getD i dfltPaper).aging_theory) = some item →
        item ∈ resp.results ∧
        normalize_theory_key item.initial_theory_name =
          normalize_theory_key (papers.getD i dfltPaper).aging_theory ∧
        applyItem (mkCtx resp papers.length ontology conservative)
          (papers.getD i dfltPaper)
          (initResult (papers.getD i dfltPaper)) item =
          Except.ok ((normalize_theory_batch papers ontology [Except.ok resp]
            RETRIES conservative).getD i dfltResult) ∧
        ((normalize_theory_batch papers ontology [Except.ok resp] RETRIES
            conservative).getD i dfltResult).success = 1) := by
  have hb := batch_single_ok papers ontology conservative resp hwf
  constructor
  · rw [hb, List.length_map]
  · intro i hi
    have hout : (normalize_theory_batch papers ontology [Except.ok resp] RETRIES
        conservative).getD i dfltResult =
        processOneOk (mkCtx resp papers.length ontology conservative)
          (papers.getD i dfltPaper) (initResult (papers.getD i dfltPaper)) := by
      rw [hb]
      exact map_getD_lt _ papers dfltResult dfltPaper i hi
    constructor
    · intro hfl
      rw [hout, processOneOk_notFound hfl]
      exact ⟨rfl, rfl⟩
    · intro item hfl
      have hm := findLast_mem hfl
      have happ := processOneOk_found (mkCtx resp papers.length ontology
          conservative) (papers.getD i dfltPaper)
        (initResult (papers.getD i dfltPaper)) hfl (hwf item hm.1)
      refine ⟨hm.1, hm.2, ?_, ?_⟩
      · rw [hout]
        exact happ
      · rw [hout]
        exact (applyItem_ok_fields happ).1

/-- Witness for claim C2: two units, a response carrying only the first
unit's key (lower-cased, trimmed): the matched unit succeeds, the missing
unit fails with the not-found reason, and the batch is not failed whole. -/
theorem claim_C2_witness :
    (normalize_theory_batch c2Papers [] [Except.ok c2Resp] RETRIES
      false).length = 2 ∧
    ((normalize_theory_batch c2Papers [] [Except.ok c2Resp] RETRIES
        false).getD 1 dfltResult).success = 0 ∧
    ((normalize_theory_batch c2Papers [] [Except.ok c2Resp] RETRIES
        false).getD 1 dfltResult).error_message =
      some ("Theory not found in LLM response: " ++
        normalize_theory_key (c2Papers.getD 1 dfltPaper).aging_theory) ∧
    ((normalize_theory_batch c2Papers [] [Except.ok c2Resp] RETRIES
        false).getD 0 dfltResult).success = 1 := by
  have h := claim_C2_theorem c2Papers [] false c2Resp c2Resp_wf
  refine ⟨h.1, ?_, ?_, ?_⟩
  · exact ((h.2 1 (by decide)).1 (by decide)).1
  · exact ((h.2 1 (by decide)).1 (by decide)).2
  · exact ((h.2 0 (by decide)).2
      ⟨.str "alpha", some (.inr [.s "A"]), some (.inr [8]), []⟩ (by decide)).2.2.2

/-- Claim C5: in a reconciled batch of B units with usage totals T and cost
C, a unit whose key is absent from the response is marked failed with the
not-found message and still receives the pro-rata shares — integer shares
T div B of the prompt, completion and total tokens and the exact cost share
C / B — the same shares every other unit of the batch receives. -/
theorem claim_C5_theorem (papers : List Paper) (ontology : List OntologyEntry)
    (conservative : Bool) (resp : LLMResponse) (hB : papers ≠ [])
    (hwf : wellFormedResp resp) :
    ∀ i, i < papers.length →
      (findLast resp.results (normalize_theory_key
          (papers.getD i dfltPaper).aging_theory) = none →
        ((normalize_theory_batch papers ontology [Except.ok resp] RETRIES
            conservative).getD i dfltResult).success = 0 ∧
        ((normalize_theory_batch papers ontology [Except.ok resp] RETRIES
            conservative).getD i dfltResult).error_message =
          some ("Theory not found in LLM response: " ++
            normalize_theory_key (papers.getD i dfltPaper).aging_theory)) ∧
      ((normalize_theory_batch papers ontology [Except.ok resp] RETRIES
          conservative).getD i dfltResult).prompt_tokens =
        resp.prompt_tokens / papers.length ∧
      ((normalize_theory_batch papers ontology [Except.ok resp] RETRIES
          conservative).getD i dfltResult).completion_tokens =
        resp.completion_tokens / papers.length ∧
      ((normalize_theory_batch papers ontology [Except.ok resp] RETRIES
          conservative).getD i dfltResult).total_tokens =
        resp.total_tokens / papers.length ∧
      ((normalize_theory_batch papers ontology [Except.ok resp] RETRIES
          conservative).getD i dfltResult).cost_usd =
        calculate_cost resp.prompt_tokens resp.completion_tokens /
          (papers.length : ℚ) := by
  intro i hi
  have hb := batch_single_ok papers ontology conservative resp hwf
  have hwf2 : ∀ it ∈ (mkCtx resp papers.length ontology conservative).resultList,
      wellFormedItem it := hwf
  have hout : (normalize_theory_batch papers ontology [Except.ok resp] RETRIES
      conservative).getD i dfltResult =
      processOneOk (mkCtx resp papers.length ontology conservative)
        (papers.getD i dfltPaper) (initResult (papers.getD i dfltPaper)) := by
    rw [hb]
    exact map_getD_lt _ papers dfltResult dfltPaper i hi
  have hsh := processOneOk_shares (mkCtx resp papers.length ontology conservative)
    (papers.getD i dfltPaper) (initResult (papers.getD i dfltPaper)) hwf2
  refine ⟨?_, ?_, ?_, ?_, ?_⟩
  · intro hfl
    rw [hout, processOneOk_notFound hfl]
    exact ⟨rfl, rfl⟩
  · rw [hout]
    exact hsh.1
  · rw [hout]
    exact hsh.2.1
  · rw [hout]
    exact hsh.2.2.1
  · rw [hout]
    exact hsh.2.2.2

/-- Witness for claim C5: the two-unit batch with one matching key; the
missing unit gets 10 div 2, 5 div 2 and 15 div 2 tokens and cost/2, the same
shares as the matched unit. -/
theorem claim_C5_witness :
    (((normalize_theory_batch c2Papers [] [Except.ok c2Resp] RETRIES
        false).getD 1 dfltResult).success = 0 ∧
      ((normalize_theory_batch c2Papers [] [Except.ok c2Resp] RETRIES
        false).getD 1 dfltResult).error_message =
        some ("Theory not found in LLM response: " ++
          normalize_theory_key (c2Papers.getD 1 dfltPaper).aging_theory)) ∧
    ((normalize_theory_batch c2Papers [] [Except.ok c2Resp] RETRIES
        false).getD 1 dfltResult).total_tokens =
      c2Resp.total_tokens / c2Papers.length ∧
    ((normalize_theory_batch c2Papers [] [Except.ok c2Resp] RETRIES
        false).getD 0 dfltResult).total_tokens =
      c2Resp.total_tokens / c2Papers.length := by
  have h := claim_C5_theorem c2Papers [] false c2Resp (by decide) c2Resp_wf
  exact ⟨(h 1 (by decide)).1 (by decide), (h 1 (by decide)).2.2.2.1,
    (h 0 (by decide)).2.2.2.1⟩

end NormalizeTheories

namespace NormalizeTheories

/-- Claim C9: `normalize_theory_batch` is total on its unit list: for every
non-empty batch, every ontology and every oracle behaviour it returns one
record per input unit, in order, carrying that unit's doi and initial theory
and a success flag of 0 or 1; and when every consumed attempt fails, every
record is failed with the last error message. -/
theorem claim_C9_theorem (papers : List Paper) (ontology : List OntologyEntry)
    (conservative : Bool) (attempts : List (Except String LLMResponse))
    (retries : Nat) (hne : papers ≠ []) :
    (normalize_theory_batch papers ontology attempts retries conservative).length
      = papers.length ∧
    List.Forall₂ (fun p r => r.doi = p.doi ∧ r.initial_theory = p.aging_theory)
      papers (normalize_theory_batch papers ontology attempts retries conservative) ∧
    (∀ r ∈ normalize_theory_batch papers ontology attempts retries conservative,
      r.success = 0 ∨ r.success = 1) ∧
    (∀ (errs : List String) (e : String),
      attempts.take retries = errs.map Except.error → errs.getLast? = some e →
      ∀ r ∈ normalize_theory_batch papers ontology attempts retries conservative,
        r.success = 0 ∧ r.error_message = some e) := by
  have htr := attemptLoop_tracks papers ontology conservative (attempts.take retries)
    (initResults papers) (initResults_tracks papers)
  refine ⟨htr.length_eq.symm, htr.imp (fun _ _ h => ⟨h.1, h.2.1⟩), ?_, ?_⟩
  · intro r hr
    obtain ⟨p, hp, hrel⟩ := forall₂_mem_right htr r hr
    exact hrel.2.2
  · intro errs e h1 h2 r hr
    have hr2 : r ∈ attemptLoop papers ontology conservative
        (errs.map Except.error) (initResults papers) := by
      rw [← h1]
      exact hr
    exact attemptLoop_errors papers ontology conservative errs e _ h2 r hr2

/-- Witness for claim C9: a single unit, three attempts all failing; the
output keeps the unit with success 0 and the last error message. -/
theorem claim_C9_witness :
    (normalize_theory_batch [c3Paper] [] [Except.error "x", Except.error "y",
      Except.error "z"] RETRIES false).length = 1 ∧
    ((normalize_theory_batch [c3Paper] [] [Except.error "x", Except.error "y",
        Except.error "z"] RETRIES false).getD 0 dfltResult).success = 0 ∧
    ((normalize_theory_batch [c3Paper] [] [Except.error "x", Except.error "y",
        Except.error "z"] RETRIES false).getD 0 dfltResult).error_message =
      some "z" := by
  have h := claim_C9_theorem [c3Paper] [] false
    [Except.error "x", Except.error "y", Except.error "z"] RETRIES (by decide)
  have hm := h.2.2.2 ["x", "y", "z"] "z" rfl rfl
    ((normalize_theory_batch [c3Paper] [] [Except.error "x", Except.error "y",
      Except.error "z"] RETRIES false).getD 0 dfltResult) (by decide)
  exact ⟨h.1, hm.1, hm.2⟩

/-- Claim C10: the per-unit token shares use floor division — over a batch of
B units they sum to B * (T div B), short of the true total T by T mod B,
which is at most B − 1, for the prompt, completion and total counts alike —
while the per-unit cost share is the exact division C / B, so the per-unit
costs sum to exactly the batch cost (the model's rationals carry no
floating-point rounding). -/
theorem claim_C10_theorem (papers : List Paper) (ontology : List OntologyEntry)
    (conservative : Bool) (resp : LLMResponse) (hB : papers ≠ [])
    (hwf : wellFormedResp resp) :
    ((normalize_theory_batch papers ontology [Except.ok resp] RETRIES
        conservative).map (fun r => r.prompt_tokens)).sum =
      papers.length * (resp.prompt_tokens / papers.length) ∧
    resp.prompt_tokens - papers.length * (resp.prompt_tokens / papers.length) ≤
      papers.length - 1 ∧
    ((normalize_theory_batch papers ontology [Except.ok resp] RETRIES
        conservative).map (fun r => r.completion_tokens)).sum =
      papers.length * (resp.completion_tokens / papers.length) ∧
    resp.completion_tokens -
        papers.length * (resp.completion_tokens / papers.length) ≤
      papers.length - 1 ∧
    ((normalize_theory_batch papers ontology [Except.ok resp] RETRIES
        conservative).map (fun r => r.total_tokens)).sum =
      papers.length * (resp.total_tokens / papers.length) ∧
    resp.total_tokens - papers.length * (resp.total_tokens / papers.length) ≤
      papers.length - 1 ∧
    ((normalize_theory_batch papers ontology [Except.ok resp] RETRIES
        conservative).map (fun r => r.cost_usd)).sum =
      calculate_cost resp.prompt_tokens resp.completion_tokens := by
  have hb := batch_single_ok papers ontology conservative resp hwf
  have hwf2 : ∀ it ∈ (mkCtx resp papers.length ontology conservative).resultList,
      wellFormedItem it := hwf
  have hB0 : 0 < papers.length := List.length_pos.mpr hB
  have hBne : (papers.length : ℚ) ≠ 0 := Nat.cast_ne_zero.mpr hB0.ne'
  have hbound : ∀ t : Nat, t - papers.length * (t / papers.length) ≤
      papers.length - 1 := by
    intro t
    have hdm := Nat.div_add_mod t papers.length
    have hml := Nat.mod_lt t hB0
    omega
  have hrepl : ∀ (f : NormResult → Nat) (c : Nat),
      (∀ p r0, f (processOneOk (mkCtx resp papers.length ontology conservative)
        p r0) = c) →
      ((normalize_theory_batch papers ontology [Except.ok resp] RETRIES
        conservative).map f).sum = papers.length * c := by
    intro f c hf
    rw [hb, List.map_map]
    have : (papers.map (fun p => f (processOneOk (mkCtx resp papers.length
        ontology conservative) p (initResult p)))) =
        List.replicate papers.length c := by
      refine List.eq_replicate_iff.mpr ⟨by simp, ?_⟩
      intro b hb2
      obtain ⟨p, hp, rfl⟩ := List.mem_map.mp hb2
      exact hf p (initResult p)
    rw [show ((fun r => f r) ∘ (fun p => processOneOk (mkCtx resp papers.length
        ontology conservative) p (initResult p))) = (fun p => f (processOneOk
        (mkCtx resp papers.length ontology conservative) p (initResult p)))
      from rfl, this, List.sum_replicate, smul_eq_mul]
  refine ⟨?_, hbound _, ?_, hbound _, ?_, hbound _, ?_⟩
  · exact hrepl _ _ (fun p r0 => (processOneOk_shares _ p r0 hwf2).1)
  · exact hrepl _ _ (fun p r0 => (processOneOk_shares _ p r0 hwf2).2.1)
  · exact hrepl _ _ (fun p r0 => (processOneOk_shares _ p r0 hwf2).2.2.1)
  · rw [hb, List.map_map]
    have hc : (papers.map ((fun r => r.cost_usd) ∘ (fun p => processOneOk
        (mkCtx resp papers.length ontology conservative) p (initResult p)))) =
        List.replicate papers.length (calculate_cost resp.prompt_tokens
          resp.completion_tokens / (papers.length : ℚ)) := by
      refine List.eq_replicate_iff.mpr ⟨by simp, ?_⟩
      intro b hb2
      obtain ⟨p, hp, rfl⟩ := List.mem_map.mp hb2
      exact (processOneOk_shares _ p (initResult p) hwf2).2.2.2
    rw [hc, List.sum_replicate, nsmul_eq_mul, mul_comm,
      div_mul_cancel₀ _ hBne]

/-- Witness for claim C10 at the two-unit batch: prompt shares sum to
2 * (10 div 2) and cost shares sum to the exact batch cost. -/
theorem claim_C10_witness :
    ((normalize_theory_batch c2Papers [] [Except.ok c2Resp] RETRIES
        false).map (fun r => r.prompt_tokens)).sum =
      c2Papers.length * (c2Resp.prompt_tokens / c2Papers.length) ∧
    ((normalize_theory_batch c2Papers [] [Except.ok c2Resp] RETRIES
        false).map (fun r => r.cost_usd)).sum =
      calculate_cost c2Resp.prompt_tokens c2Resp.completion_tokens := by
  have h := claim_C10_theorem c2Papers [] false c2Resp (by decide) c2Resp_wf
  exact ⟨h.1, h.2.2.2.2.2.2⟩

end NormalizeTheories
